import Mathlib

/-!
Shallow embedding of the per-connection session logic of the speech relay
backend (src/server.ts).  The session bridges a client WebSocket and an
upstream Google streaming-recognition stream.  External collaborators
(the WebSocket library, JSON.parse, the gRPC stream object) are modelled
at their observable interface: events delivered to the session handlers
and effects the handlers issue (writes, end, destroy, messages to the
client).
-/

namespace SpeechRelay

/-- Observable interface of the upstream recognition stream object, as the
source reads it: the fields `destroyed` and `writable`.  The `id` tags each
created stream so that effects can be traced to a particular handle. -/
structure StreamHandle where
  id : Nat
  destroyed : Bool
  writable : Bool
deriving DecidableEq, Repr

/-- Per-connection session state: the `recognizeStream` variable (absent or a
handle), whether `ws.readyState === WebSocket.OPEN`, and a counter supplying
fresh ids for newly created streams. -/
structure SessionState where
  stream : Option StreamHandle
  wsOpen : Bool
  nextId : Nat
deriving DecidableEq, Repr

/-- Environment oracle for one binary-message step: whether
`speechClient.streamingRecognize` returns normally (`creationOk`) and whether
the fresh stream reports `writable` when checked (`writableOnCreate`). -/
structure Env where
  creationOk : Bool
  writableOnCreate : Bool
deriving DecidableEq, Repr

/-- JSON text messages the server sends to the client. -/
inductive OutMsg where
  | transcriptMsg (text : String) (isFinal : Bool)
  | errorMsg (text : String)
deriving DecidableEq, Repr

/-- Observable side effects of one handler invocation. -/
inductive Effect where
  | startStream (id : Nat)
  | upstreamWrite (id : Nat) (samples : List Int)
  | upstreamEnd (id : Nat)
  | upstreamDestroy (id : Nat)
  | sendToClient (m : OutMsg)
deriving DecidableEq, Repr

/-- Result of `JSON.parse` on a text message: either a parse failure or a
parsed object whose `command` field is the given optional string. -/
inductive TextMsg where
  | notJson
  | json (command : Option String)
deriving DecidableEq, Repr

/-- One alternative inside a recognition result (`alternatives[j]`). -/
structure RecogAlt where
  transcript : Option String
deriving DecidableEq, Repr

/-- One recognition result (`data.results[k]`). -/
structure RecogResult where
  alternatives : Option (List RecogAlt)
  is_final : Option Bool
deriving DecidableEq, Repr

/-- Payload of a `data` event from the upstream stream. -/
structure RecogData where
  results : Option (List RecogResult)
  speechEventType : Option String
deriving DecidableEq, Repr

/-- Events delivered to the per-connection handlers. -/
inductive Event where
  | textMessage (m : TextMsg)
  | binaryMessage (env : Env) (frame : List Nat)
  | streamError (message : Option String)
  | streamData (d : RecogData)
  | streamEnded
  | streamClosed
  | wsClose
  | wsError
deriving DecidableEq, Repr

/-! ### IEEE-754 binary32 decoding and the float-to-int16 conversion -/

/-- Value denoted by a 32-bit float: NaN, a signed infinity, or an exactly
represented rational. -/
inductive F32 where
  | nan
  | inf (negSign : Bool)
  | fin (q : ℚ)
deriving DecidableEq, Repr

/-- Decode a 32-bit word as an IEEE-754 binary32 value.  A finite float with
sign s, biased exponent e and mantissa m denotes
(-1)^s * (2^23 + m) * 2^(e - 150) when e > 0 and (-1)^s * m * 2^(-149)
when e = 0; both are written with nonnegative powers only. -/
def decodeF32 (w : Nat) : F32 :=
  let s : ℕ := w / 2 ^ 31 % 2
  let e : ℕ := w / 2 ^ 23 % 2 ^ 8
  let m : ℕ := w % 2 ^ 23
  if e = 255 then
    if m = 0 then F32.inf (s == 1) else F32.nan
  else
    let mag : ℚ :=
      if e = 0 then (m : ℚ) / 2 ^ 149
      else ((2 ^ 23 + m : ℚ)) * 2 ^ e / 2 ^ 150
    F32.fin (if s = 1 then -mag else mag)

/-- JavaScript double values reachable in the conversion: NaN, infinities, or
an exact rational (every intermediate product here is exact in binary64). -/
inductive JsNum where
  | nan
  | posInf
  | negInf
  | num (q : ℚ)
deriving DecidableEq, Repr

/-- The multiplication `float32Array[i] * 32767`.  A binary32 finite value has
at most 24 mantissa bits and 32767 has 15, so the binary64 product is exact. -/
def f32Mul32767 (f : F32) : JsNum :=
  match f with
  | .nan => .nan
  | .inf negSign => if negSign then .negInf else .posInf
  | .fin q => .num (q * 32767)

/-- `Math.min(c, x)` for a finite constant c: NaN propagates. -/
def jsMin (c : ℚ) (x : JsNum) : JsNum :=
  match x with
  | .nan => .nan
  | .posInf => .num c
  | .negInf => .negInf
  | .num q => .num (min c q)

/-- `Math.max(c, x)` for a finite constant c: NaN propagates. -/
def jsMax (c : ℚ) (x : JsNum) : JsNum :=
  match x with
  | .nan => .nan
  | .posInf => .posInf
  | .negInf => .num c
  | .num q => .num (max c q)

/-- Truncation toward zero of a rational, as the ECMAScript truncate step. -/
def jsTrunc (q : ℚ) : ℤ := if 0 ≤ q then ⌊q⌋ else ⌈q⌉

/-- ECMAScript ToInt16, applied by the assignment `int16Array[i] = v`:
NaN and infinities map to 0, finite values are truncated toward zero and
reduced modulo 2^16 into the signed 16-bit range. -/
def jsToInt16 (x : JsNum) : ℤ :=
  match x with
  | .num q =>
      let i := jsTrunc q
      let r := i % 65536
      if r < 32768 then r else r - 65536
  | _ => 0

/-- One sample of the conversion loop:
`int16Array[i] = Math.max(-32768, Math.min(32767, float32Array[i] * 32767))`. -/
def sampleToInt16 (f : F32) : ℤ :=
  jsToInt16 (jsMax (-32768) (jsMin 32767 (f32Mul32767 f)))

/-- Group the frame bytes into little-endian 32-bit words, exactly as the
`Float32Array` view reads the buffer; a trailing group of fewer than four
bytes yields no element. -/
def toWords : List Nat → List Nat
  | b0 :: b1 :: b2 :: b3 :: rest =>
      (b0 + 2 ^ 8 * b1 + 2 ^ 16 * b2 + 2 ^ 24 * b3) :: toWords rest
  | _ => []

/-- The full frame conversion: view the bytes as little-endian binary32
samples and convert each to a signed 16-bit sample. -/
def convertSamples (frame : List Nat) : List Int :=
  (toWords frame).map (fun w => sampleToInt16 (decodeF32 w))

/-- The little-endian 32-bit word starting at byte offset 4*i of the frame. -/
def leWordAt (frame : List Nat) (i : Nat) : Nat :=
  frame.getD (4 * i) 0 + 2 ^ 8 * frame.getD (4 * i + 1) 0 +
    2 ^ 16 * frame.getD (4 * i + 2) 0 + 2 ^ 24 * frame.getD (4 * i + 3) 0

/-! ### Session handlers -/

/-- The guard the source repeats before every use of the stream:
`recognizeStream && !recognizeStream.destroyed && recognizeStream.writable`. -/
def activeWritable (st : SessionState) : Bool :=
  match st.stream with
  | some h => !h.destroyed && h.writable
  | none => false

/-- `startGoogleStream`: on success `recognizeStream` is set to the freshly
created stream; on a synchronous throw of `streamingRecognize` the catch
block sends the fixed error text to the client when the socket is open and
sets `recognizeStream = null`. -/
def startGoogleStream (env : Env) (st : SessionState) : SessionState × List Effect :=
  if env.creationOk then
    ({ st with stream := some ⟨st.nextId, false, env.writableOnCreate⟩,
               nextId := st.nextId + 1 },
     [Effect.startStream st.nextId])
  else
    ({ st with stream := none },
     if st.wsOpen then
       [Effect.sendToClient (OutMsg.errorMsg "Internal failure starting transcription service.")]
     else [])

/-- `processAndSendAudio`: drop the frame when its byte length is not a
multiple of four, otherwise convert it and write the samples when the stream
is present, not destroyed and writable. -/
def processAndSendAudio (frame : List Nat) (st : SessionState) :
    SessionState × List Effect :=
  if frame.length % 4 ≠ 0 then (st, [])
  else
    match st.stream with
    | some h =>
        if !h.destroyed && h.writable then
          (st, [Effect.upstreamWrite h.id (convertSamples frame)])
        else (st, [])
    | none => (st, [])

/-- Binary branch of the message handler.  With no stream the handler starts
one and schedules a single deferred delivery of the same frame (the 150 ms
setTimeout), modelled as part of the same step: the deferred callback runs
`processAndSendAudio` only if the stream it then sees is present, not
destroyed and writable.  A destroyed stream discards the frame; a live one
delivers it through the same writable guard. -/
def onBinaryMessage (env : Env) (frame : List Nat) (st : SessionState) :
    SessionState × List Effect :=
  match st.stream with
  | none =>
      let out1 := startGoogleStream env st
      match out1.1.stream with
      | some h =>
          if !h.destroyed && h.writable then
            let out2 := processAndSendAudio frame out1.1
            (out2.1, out1.2 ++ out2.2)
          else out1
      | none => out1
  | some h =>
      if h.destroyed then (st, [])
      else if h.writable then processAndSendAudio frame st
      else (st, [])

/-- Text branch of the message handler: a JSON parse failure is ignored; a
parsed object is dispatched on its `command` field; only `stopStreaming`
with a present, non-destroyed, writable stream half-closes the write side. -/
def onTextMessage (m : TextMsg) (st : SessionState) : SessionState × List Effect :=
  match m with
  | .notJson => (st, [])
  | .json c =>
      if c = some "stopStreaming" then
        match st.stream with
        | some h =>
            if !h.destroyed && h.writable then
              ({ st with stream := some { h with writable := false } },
               [Effect.upstreamEnd h.id])
            else (st, [])
        | none => (st, [])
      else (st, [])

/-- The fallback in the error text: `err.message || "Unknown error"`. -/
def engineErrorText (message : Option String) : String :=
  match message with
  | none => "Unknown error"
  | some s => if s = "" then "Unknown error" else s

/-- Handler of the `error` event of the upstream stream: send the error text
to the client when the socket is open, destroy the stream when the reference
is still set, and null the reference. -/
def onStreamError (message : Option String) (st : SessionState) :
    SessionState × List Effect :=
  let sendEffs :=
    if st.wsOpen then
      [Effect.sendToClient
        (OutMsg.errorMsg ("Google API Error: " ++ engineErrorText message))]
    else []
  let destroyEffs :=
    match st.stream with
    | some h => [Effect.upstreamDestroy h.id]
    | none => []
  ({ st with stream := none }, sendEffs ++ destroyEffs)

/-- Handler of the `data` event of the upstream stream: forward the transcript
of the first alternative of the first result, when it is present and
non-empty, as one message to the client when the socket is open. -/
def onStreamData (d : RecogData) (st : SessionState) : SessionState × List Effect :=
  (st,
   match d.results with
   | some (r :: _) =>
       match r.alternatives with
       | some (a :: _) =>
           match a.transcript with
           | some t =>
               if t ≠ "" then
                 if st.wsOpen then
                   [Effect.sendToClient (OutMsg.transcriptMsg t (r.is_final.getD false))]
                 else []
               else []
           | none => []
       | _ => []
   | _ => [])

/-- Handler of the client-socket `close` event: half-close the stream when it
is present, not destroyed and writable, then null the reference. -/
def onWsClose (st : SessionState) : SessionState × List Effect :=
  let effs :=
    match st.stream with
    | some h => if !h.destroyed && h.writable then [Effect.upstreamEnd h.id] else []
    | none => []
  ({ st with stream := none, wsOpen := false }, effs)

/-- Handler of the client-socket `error` event: destroy the stream when it is
present and not destroyed, then null the reference. -/
def onWsError (st : SessionState) : SessionState × List Effect :=
  let effs :=
    match st.stream with
    | some h => if !h.destroyed then [Effect.upstreamDestroy h.id] else []
    | none => []
  ({ st with stream := none }, effs)

/-- One event dispatched to the session.  The `close` event of the upstream
stream nulls the reference; its `end` event only logs. -/
def step (st : SessionState) (e : Event) : SessionState × List Effect :=
  match e with
  | .textMessage m => onTextMessage m st
  | .binaryMessage env frame => onBinaryMessage env frame st
  | .streamError msg => onStreamError msg st
  | .streamData d => onStreamData d st
  | .streamEnded => (st, [])
  | .streamClosed => ({ st with stream := none }, [])
  | .wsClose => onWsClose st
  | .wsError => onWsError st

/-- Run a sequence of events, collecting all effects in order. -/
def runTrace (st : SessionState) : List Event → SessionState × List Effect
  | [] => (st, [])
  | e :: es =>
      let out1 := step st e
      let out2 := runTrace out1.1 es
      (out2.1, out1.2 ++ out2.2)

/-- State of a fresh connection: no stream, socket open. -/
def initialSession : SessionState := { stream := none, wsOpen := true, nextId := 0 }

/-- A state whose stream is live and writable, as after a successful start. -/
def liveState : SessionState :=
  { stream := some ⟨0, false, true⟩, wsOpen := true, nextId := 1 }

/-- Environment where stream creation succeeds and the stream is writable. -/
def envOk : Env := { creationOk := true, writableOnCreate := true }

/-- Environment where `streamingRecognize` throws synchronously. -/
def envThrow : Env := { creationOk := false, writableOnCreate := true }

/-- A concrete data event carrying two results with two alternatives each,
used to exercise the relay of the first alternative of the first result. -/
def sampleData : RecogData :=
  { results := some
      [ { alternatives := some [⟨some "ola"⟩, ⟨some "alo"⟩], is_final := some true },
        { alternatives := some [⟨some "mundo"⟩], is_final := some false } ],
    speechEventType := none }

/-- Recognition predicate on effects: a message to the client. -/
def isClientSend : Effect → Bool
  | .sendToClient _ => true
  | _ => false

/-- Recognition predicate on effects: an error message to the client. -/
def isErrorSend : Effect → Bool
  | .sendToClient (.errorMsg _) => true
  | _ => false

/-- Recognition predicate on effects: an audio write to the upstream stream. -/
def isWrite : Effect → Bool
  | .upstreamWrite _ _ => true
  | _ => false

/-- Recognition predicate on effects: a write addressed to stream id k. -/
def writesTo (k : Nat) : Effect → Bool
  | .upstreamWrite i _ => i == k
  | _ => false

/-- Number of live (present) stream handles a session holds; the source keeps
a single nullable variable, so this is zero or one by construction. -/
def liveCount (st : SessionState) : Nat :=
  match st.stream with
  | some _ => 1
  | none => 0

/-- All stream ids a state can address are below its fresh-id counter, and
differ from k.  Used to show a torn-down stream is never written again. -/
def avoids (k : Nat) (st : SessionState) : Prop :=
  (∀ h, st.stream = some h → h.id ≠ k) ∧ k < st.nextId

/-- Shape of one handler invocation from state st: the fresh-id counter never
decreases, any handle in the next state is the old handle (same id) or the
freshly created one, and any write addresses the old handle or the fresh id. -/
def StepShape (st : SessionState) (out : SessionState × List Effect) : Prop :=
  st.nextId ≤ out.1.nextId ∧
  (∀ h2, out.1.stream = some h2 →
      (∃ h, st.stream = some h ∧ h2.id = h.id) ∨ h2.id = st.nextId) ∧
  (∀ ef ∈ out.2, ∀ i s, ef = Effect.upstreamWrite i s →
      (∃ h, st.stream = some h ∧ i = h.id) ∨ i = st.nextId)

/-! ### Claim-side formulas, written from the words of the spec -/

/-- Modelled from the spec: the per-sample formula of claim C1,
`clamp(round(input[i] * 32767), -32768, 32767)`, on a finite sample value. -/
def specRoundSample (q : ℚ) : ℤ :=
  max (-32768) (min 32767 (round (q * 32767)))

/-- The amended per-sample formula: the scaled sample is truncated toward
zero (the ECMAScript ToInt16 conversion applied by the Int16Array store)
and clamped to [-32768, 32767]; NaN maps to 0 and the infinities clamp to
the respective bound. -/
def truncSample (f : F32) : ℤ :=
  match f with
  | .nan => 0
  | .inf negSign => if negSign then -32768 else 32767
  | .fin q => max (-32768) (min 32767 (jsTrunc (q * 32767)))

/-! ### Helper lemmas -/

/-- Truncation fixes the upper clamp bound. -/
theorem jsTrunc_hi : jsTrunc (32767 : ℚ) = 32767 := by
  rw [jsTrunc, if_pos (by norm_num : (0 : ℚ) ≤ 32767),
    show (32767 : ℚ) = ((32767 : ℤ) : ℚ) by norm_num, Int.floor_intCast]

/-- Truncation fixes the lower clamp bound. -/
theorem jsTrunc_lo : jsTrunc (-32768 : ℚ) = -32768 := by
  rw [jsTrunc, if_neg (by norm_num : ¬ (0 : ℚ) ≤ -32768),
    show (-32768 : ℚ) = ((-32768 : ℤ) : ℚ) by norm_num, Int.ceil_intCast]

/-- Truncating after clamping to the integer bounds equals clamping the
truncation: the store into the Int16Array agrees with clamp-of-truncate. -/
theorem jsToInt16_clamp (x : ℚ) :
    jsToInt16 (JsNum.num (max (-32768) (min 32767 x))) =
      max (-32768) (min 32767 (jsTrunc x)) := by
  rcases le_or_lt x (-32768) with hlo | hlo
  · have hmin : min (32767 : ℚ) x = x := min_eq_right (by linarith)
    have hmax : max (-32768 : ℚ) x = -32768 := max_eq_left hlo
    have hx0 : ¬ (0 : ℚ) ≤ x := by linarith
    have htr : jsTrunc x ≤ -32768 := by
      rw [jsTrunc, if_neg hx0]
      exact Int.ceil_le.mpr (by exact_mod_cast hlo)
    have hminZ : min (32767 : ℤ) (jsTrunc x) = jsTrunc x :=
      min_eq_right (le_trans htr (by norm_num))
    have hmaxZ : max (-32768 : ℤ) (jsTrunc x) = -32768 := max_eq_left htr
    rw [hmin, hmax, hminZ, hmaxZ, jsToInt16, jsTrunc_lo]
    decide
  · rcases le_or_lt (32767 : ℚ) x with hhi | hhi
    · have hmin : min (32767 : ℚ) x = 32767 := min_eq_left hhi
      have hmax : max (-32768 : ℚ) (32767 : ℚ) = 32767 := by norm_num
      have hx0 : (0 : ℚ) ≤ x := by linarith
      have htr : (32767 : ℤ) ≤ jsTrunc x := by
        rw [jsTrunc, if_pos hx0]
        exact Int.le_floor.mpr (by exact_mod_cast hhi)
      have hminZ : min (32767 : ℤ) (jsTrunc x) = 32767 := min_eq_left htr
      have hmaxZ : max (-32768 : ℤ) (32767 : ℤ) = 32767 := by norm_num
      rw [hmin, hmax, hminZ, hmaxZ, jsToInt16, jsTrunc_hi]
      decide
    · have hmin : min (32767 : ℚ) x = x := min_eq_right (le_of_lt hhi)
      have hmax : max (-32768 : ℚ) x = x := max_eq_right (le_of_lt hlo)
      have hbounds : -32768 ≤ jsTrunc x ∧ jsTrunc x ≤ 32767 := by
        rw [jsTrunc]
        rcases le_or_lt (0 : ℚ) x with hx0 | hx0
        · rw [if_pos hx0]
          constructor
          · exact le_trans (by norm_num) (Int.floor_nonneg.mpr hx0)
          · have : (⌊x⌋ : ℚ) < 32767 := lt_of_le_of_lt (Int.floor_le x) hhi
            exact_mod_cast le_of_lt (by exact_mod_cast this : (⌊x⌋ : ℤ) < 32767)
        · rw [if_neg (not_le.mpr hx0)]
          constructor
          · have : (-32768 : ℚ) < (⌈x⌉ : ℚ) := lt_of_lt_of_le hlo (Int.le_ceil x)
            exact_mod_cast le_of_lt (by exact_mod_cast this : (-32768 : ℤ) < ⌈x⌉)
          · have hc : ⌈x⌉ ≤ (0 : ℤ) :=
              Int.ceil_le.mpr (by exact_mod_cast le_of_lt hx0)
            exact le_trans hc (by norm_num)
      obtain ⟨hb1, hb2⟩ := hbounds
      have hminZ : min (32767 : ℤ) (jsTrunc x) = jsTrunc x := min_eq_right hb2
      have hmaxZ : max (-32768 : ℤ) (jsTrunc x) = jsTrunc x := max_eq_right hb1
      rw [hmin, hmax, hminZ, hmaxZ, jsToInt16]
      split <;> omega

/-- The conversion the source performs on one sample equals the amended
clamp-of-truncation formula. -/
theorem sampleToInt16_eq_truncSample (f : F32) : sampleToInt16 f = truncSample f := by
  cases f with
  | nan => rfl
  | inf negSign =>
      cases negSign with
      | false =>
          show jsToInt16 (jsMax (-32768) (jsMin 32767 (f32Mul32767 (F32.inf false)))) = _
          simp only [f32Mul32767, Bool.false_eq_true, if_false, jsMin, jsMax, truncSample]
          rw [jsToInt16, max_eq_right (by norm_num : (-32768 : ℚ) ≤ 32767), jsTrunc_hi]
          decide
      | true =>
          show jsToInt16 (jsMax (-32768) (jsMin 32767 (f32Mul32767 (F32.inf true)))) = _
          simp only [f32Mul32767, if_true, jsMin, jsMax, truncSample]
          rw [jsToInt16, jsTrunc_lo]
          decide
  | fin q =>
      show jsToInt16 (JsNum.num (max (-32768) (min 32767 (q * 32767)))) = _
      rw [jsToInt16_clamp, truncSample]

/-- Element i of the word list is the little-endian word at byte offset 4*i. -/
theorem toWords_get? (frame : List Nat) (i : Nat) (hi : 4 * i + 4 ≤ frame.length) :
    (toWords frame).get? i = some (leWordAt frame i) := by
  induction i generalizing frame with
  | zero =>
      rcases frame with _ | ⟨b0, frame1⟩
      · simp at hi
      rcases frame1 with _ | ⟨b1, frame2⟩
      · simp at hi
      rcases frame2 with _ | ⟨b2, frame3⟩
      · simp at hi
      rcases frame3 with _ | ⟨b3, rest⟩
      · simp at hi
      simp [toWords, leWordAt, List.getD]
  | succ n ih =>
      rcases frame with _ | ⟨b0, frame1⟩
      · simp at hi
      rcases frame1 with _ | ⟨b1, frame2⟩
      · simp at hi
      rcases frame2 with _ | ⟨b2, frame3⟩
      · simp at hi
      rcases frame3 with _ | ⟨b3, rest⟩
      · simp at hi
      have hlen : 4 * n + 4 ≤ rest.length := by
        simp at hi; omega
      have hrec := ih rest hlen
      have hwords : toWords (b0 :: b1 :: b2 :: b3 :: rest) =
          (b0 + 2 ^ 8 * b1 + 2 ^ 16 * b2 + 2 ^ 24 * b3) :: toWords rest := rfl
      rw [hwords, List.get?_cons_succ, hrec]
      rfl

/-- Indexing the converted samples: sample i comes from the word at offset
4*i through decode and per-sample convert. -/
theorem convertSamples_get? (frame : List Nat) (i : Nat)
    (hi : 4 * i + 4 ≤ frame.length) :
    (convertSamples frame).get? i =
      some (sampleToInt16 (decodeF32 (leWordAt frame i))) := by
  rw [convertSamples, List.get?_map, toWords_get? frame i hi]
  rfl

/-- Words of an all-zero frame of 4*n bytes: n zero words. -/
theorem toWords_replicate (n : ℕ) :
    toWords (List.replicate (4 * n) 0) = List.replicate n 0 := by
  induction n with
  | zero => rfl
  | succ k ih =>
      rw [show 4 * (k + 1) = 4 * k + 1 + 1 + 1 + 1 by ring]
      simp only [List.replicate_succ]
      rw [show
          toWords (0 :: 0 :: 0 :: 0 :: List.replicate (4 * k) 0) =
            (0 + 2 ^ 8 * 0 + 2 ^ 16 * 0 + 2 ^ 24 * 0) :: toWords (List.replicate (4 * k) 0)
          from rfl, ih]
      norm_num

/-- A zero word decodes to the float +0 and converts to the sample 0. -/
theorem sample_zero : sampleToInt16 (decodeF32 0) = 0 := by
  norm_num [sampleToInt16, decodeF32, f32Mul32767, jsMin, jsMax, jsToInt16, jsTrunc]

/-- Converting an all-zero frame of 4*n bytes yields n zero samples. -/
theorem convertSamples_replicate (n : ℕ) :
    convertSamples (List.replicate (4 * n) 0) = List.replicate n (0 : ℤ) := by
  rw [convertSamples, toWords_replicate, List.map_replicate, sample_zero]

/-- Assemble a StepShape certificate from its three components. -/
theorem stepShape_parts {st st' : SessionState} {effs : List Effect}
    (h1 : st.nextId ≤ st'.nextId)
    (h2 : ∀ h2, st'.stream = some h2 →
        (∃ h, st.stream = some h ∧ h2.id = h.id) ∨ h2.id = st.nextId)
    (h3 : ∀ ef ∈ effs, isWrite ef = false) :
    StepShape st (st', effs) := by
  refine ⟨h1, h2, ?_⟩
  intro ef hef i s hes
  have hw := h3 ef hef
  rw [hes] at hw
  simp [isWrite] at hw

/-- The audio helper never changes the state and only writes to the handle
the state already holds. -/
theorem processAndSendAudio_shape (frame : List Nat) (st : SessionState) :
    (processAndSendAudio frame st).1 = st ∧
    ∀ ef ∈ (processAndSendAudio frame st).2, ∀ i s,
      ef = Effect.upstreamWrite i s → ∃ h, st.stream = some h ∧ i = h.id := by
  by_cases hlen : frame.length % 4 ≠ 0
  · simp [processAndSendAudio, hlen]
  · cases hstream : st.stream with
    | none => simp [processAndSendAudio, hlen, hstream]
    | some h =>
        by_cases hg : (!h.destroyed && h.writable) = true
        · refine ⟨by simp [processAndSendAudio, hlen, hstream, hg], ?_⟩
          intro ef hef i s hes
          simp [processAndSendAudio, hlen, hstream, hg] at hef
          refine ⟨h, rfl, ?_⟩
          rw [hef] at hes
          injection hes with h1 h2
          exact h1.symm
        · simp [processAndSendAudio, hlen, hstream, hg]

/-- The audio helper emits only writes. -/
theorem processAndSendAudio_writes (frame : List Nat) (st : SessionState) :
    ∀ ef ∈ (processAndSendAudio frame st).2, isWrite ef = true := by
  by_cases hlen : frame.length % 4 ≠ 0
  · simp [processAndSendAudio, hlen]
  · cases hstream : st.stream with
    | none => simp [processAndSendAudio, hlen, hstream]
    | some h =>
        by_cases hg : (!h.destroyed && h.writable) = true <;>
          simp [processAndSendAudio, hlen, hstream, hg, isWrite]

/-- The data-event handler emits only messages to the client. -/
theorem onStreamData_sends (d : RecogData) (st : SessionState) :
    ∀ ef ∈ (onStreamData d st).2, isClientSend ef = true := by
  intro ef hef
  obtain ⟨results, sev⟩ := d
  simp only [onStreamData] at hef
  rcases results with _ | (_ | ⟨r, rs⟩)
  · simp at hef
  · simp at hef
  · obtain ⟨alts, fin⟩ := r
    rcases alts with _ | (_ | ⟨a, as⟩)
    · simp at hef
    · simp at hef
    · obtain ⟨tr⟩ := a
      rcases tr with _ | t
      · simp at hef
      · by_cases ht : t = ""
        · simp [ht] at hef
        · by_cases hws : st.wsOpen = true
          · simp [ht, hws] at hef
            rw [hef]; rfl
          · simp [ht, hws] at hef

/-- The identity outcome satisfies StepShape. -/
theorem stepShape_noop (st : SessionState) : StepShape st (st, []) :=
  stepShape_parts (le_refl _) (fun h2 hh2 => Or.inl ⟨h2, hh2, rfl⟩) (by simp)

/-- The audio helper satisfies StepShape. -/
theorem stepShape_process (st : SessionState) (frame : List Nat) :
    StepShape st (processAndSendAudio frame st) := by
  obtain ⟨hfst, hwr⟩ := processAndSendAudio_shape frame st
  refine ⟨le_of_eq (by rw [hfst]), ?_, ?_⟩
  · intro h2 hh2
    rw [hfst] at hh2
    exact Or.inl ⟨h2, hh2, rfl⟩
  · intro ef hef i s hes
    rcases hwr ef hef i s hes with ⟨h3, hh3, hi⟩
    exact Or.inl ⟨h3, hh3, hi⟩

/-- Every handler invocation satisfies the StepShape discipline. -/
theorem step_stepShape (st : SessionState) (e : Event) : StepShape st (step st e) := by
  cases e with
  | textMessage m =>
      cases m with
      | notJson => exact stepShape_noop st
      | json c =>
          simp only [step, onTextMessage]
          split
          · split
            · rename_i h heq
              split
              · refine stepShape_parts (le_refl _) ?_ (by simp [isWrite])
                intro h2 hh2
                simp only [Option.some.injEq] at hh2
                exact Or.inl ⟨h, heq, by rw [← hh2]⟩
              · exact stepShape_noop st
            · exact stepShape_noop st
          · exact stepShape_noop st
  | binaryMessage env frame =>
      simp only [step, onBinaryMessage]
      split
      · -- st.stream = none : creation, then the deferred delivery
        by_cases hok : env.creationOk = true
        · by_cases hwc : env.writableOnCreate = true
          · simp only [startGoogleStream, hok, if_true, hwc, Bool.not_false,
              Bool.true_and, Bool.and_true]
            obtain ⟨hfst, hwr⟩ := processAndSendAudio_shape frame
              { st with stream := some ⟨st.nextId, false, true⟩,
                        nextId := st.nextId + 1 }
            refine ⟨?_, ?_, ?_⟩
            · rw [hfst]
              exact Nat.le_succ _
            · intro h2 hh2
              rw [hfst] at hh2
              simp only [Option.some.injEq] at hh2
              exact Or.inr (by rw [← hh2])
            · intro ef hef i s hes
              rcases List.mem_append.mp hef with hmem | hmem
              · simp at hmem
                rw [hmem] at hes
                cases hes
              · rcases hwr ef hmem i s hes with ⟨h3, hh3, hi⟩
                simp only [Option.some.injEq] at hh3
                exact Or.inr (by rw [hi, ← hh3])
          · have hwc' : env.writableOnCreate = false := by
              revert hwc; cases env.writableOnCreate <;> simp
            simp only [startGoogleStream, hok, if_true, hwc', Bool.not_false,
              Bool.true_and, Bool.false_eq_true, if_false]
            refine ⟨Nat.le_succ _, ?_, ?_⟩
            · intro h2 hh2
              simp only [Option.some.injEq] at hh2
              exact Or.inr (by rw [← hh2])
            · intro ef hef i s hes
              simp at hef
              rw [hef] at hes
              cases hes
        · simp only [startGoogleStream, hok, if_false]
          refine stepShape_parts (le_refl _) (by simp) ?_
          intro ef hef
          by_cases hws : st.wsOpen = true <;> simp [hws] at hef <;>
            rw [hef] <;> rfl
      · -- st.stream = some h
        split
        · exact stepShape_noop st
        · split
          · exact stepShape_process st frame
          · exact stepShape_noop st
  | streamError msg =>
      simp only [step, onStreamError]
      refine stepShape_parts (le_refl _) (by simp) ?_
      intro ef hef
      rcases List.mem_append.mp hef with hmem | hmem
      · by_cases hws : st.wsOpen = true <;> simp [hws] at hmem
        rw [hmem]; rfl
      · cases hstream : st.stream with
        | some h => rw [hstream] at hmem; simp at hmem; rw [hmem]; rfl
        | none => rw [hstream] at hmem; simp at hmem
  | streamData d =>
      refine stepShape_parts (le_refl _) (fun h2 hh2 => Or.inl ⟨h2, hh2, rfl⟩) ?_
      intro ef hef
      obtain ⟨results, sev⟩ := d
      simp only [step, onStreamData] at hef
      rcases results with _ | (_ | ⟨r, rs⟩)
      · simp at hef
      · simp at hef
      · obtain ⟨alts, fin⟩ := r
        rcases alts with _ | (_ | ⟨a, as⟩)
        · simp at hef
        · simp at hef
        · obtain ⟨tr⟩ := a
          rcases tr with _ | t
          · simp at hef
          · by_cases ht : t = ""
            · simp [ht] at hef
            · by_cases hws : st.wsOpen = true
              · simp [ht, hws] at hef
                rw [hef]; rfl
              · simp [ht, hws] at hef
  | streamEnded => exact stepShape_noop st
  | streamClosed =>
      exact stepShape_parts (le_refl _) (by simp [step]) (by simp [step])
  | wsClose =>
      simp only [step, onWsClose]
      refine stepShape_parts (le_refl _) (by simp) ?_
      intro ef hef
      cases hstream : st.stream with
      | some h =>
          rw [hstream] at hef
          by_cases hg : (!h.destroyed && h.writable) = true <;> simp [hg] at hef
          rw [hef]; rfl
      | none => rw [hstream] at hef; simp at hef
  | wsError =>
      simp only [step, onWsError]
      refine stepShape_parts (le_refl _) (by simp) ?_
      intro ef hef
      cases hstream : st.stream with
      | some h =>
          rw [hstream] at hef
          by_cases hg : (!h.destroyed) = true <;> simp [hg] at hef
          rw [hef]; rfl
      | none => rw [hstream] at hef; simp at hef

/-- One step from a state that avoids id k still avoids k and writes nothing
to k. -/
theorem step_avoids (k : Nat) (st : SessionState) (e : Event) (hav : avoids k st) :
    avoids k (step st e).1 ∧ ∀ ef ∈ (step st e).2, writesTo k ef = false := by
  obtain ⟨hid, hlt⟩ := hav
  obtain ⟨h1, h2, h3⟩ := step_stepShape st e
  constructor
  · constructor
    · intro hh hhs
      rcases h2 hh hhs with ⟨h, hsome, hids⟩ | hids
      · rw [hids]; exact hid h hsome
      · omega
    · omega
  · intro ef hef
    cases ef with
    | upstreamWrite i s =>
        have hne : i ≠ k := by
          rcases h3 _ hef i s rfl with ⟨h, hsome, hi⟩ | hi
          · rw [hi]; exact hid h hsome
          · omega
        simp [writesTo, hne]
    | startStream i => rfl
    | upstreamEnd i => rfl
    | upstreamDestroy i => rfl
    | sendToClient m => rfl

/-- A whole trace from a state that avoids id k never writes to k. -/
theorem runTrace_avoids (k : Nat) (st : SessionState) (es : List Event)
    (hav : avoids k st) : ∀ ef ∈ (runTrace st es).2, writesTo k ef = false := by
  induction es generalizing st with
  | nil => simp [runTrace]
  | cons e es ih =>
      obtain ⟨hav2, hstep⟩ := step_avoids k st e hav
      intro ef hef
      simp only [runTrace] at hef
      rcases List.mem_append.mp hef with hmem | hmem
      · exact hstep ef hmem
      · exact ih (step st e).1 hav2 ef hmem

/-- With a live writable stream, a binary message goes straight to the audio
helper. -/
theorem step_binary_live (st : SessionState) (h : StreamHandle) (env : Env)
    (frame : List Nat) (hs : st.stream = some h) (hd : h.destroyed = false)
    (hw : h.writable = true) :
    step st (Event.binaryMessage env frame) = processAndSendAudio frame st := by
  simp [step, onBinaryMessage, hs, hd, hw]

/-- With a live writable stream and a well-formed frame, the audio helper
writes the converted samples and changes nothing else. -/
theorem processAndSendAudio_live (frame : List Nat) (st : SessionState)
    (h : StreamHandle) (hs : st.stream = some h) (hd : h.destroyed = false)
    (hw : h.writable = true) (hlen : frame.length % 4 = 0) :
    processAndSendAudio frame st =
      (st, [Effect.upstreamWrite h.id (convertSamples frame)]) := by
  simp [processAndSendAudio, hlen, hs, hd, hw]

/-! ### Claims -/

/-- Claim C1, counterexample: the byte frame 00 00 00 3F is the single
little-endian float 0.5; the emitted sample is 16383 (truncation of
16383.5), while clamp of round of 0.5 * 32767 is 16384, so the conversion
does not round as the claim states. -/
theorem claim_C1_counterexample :
    decodeF32 (leWordAt [0, 0, 0, 63] 0) = F32.fin (1 / 2) ∧
    (step liveState (Event.binaryMessage envOk [0, 0, 0, 63])).2 =
      [Effect.upstreamWrite 0 [(16383 : ℤ)]] ∧
    specRoundSample (1 / 2) = 16384 ∧
    (16383 : ℤ) ≠ 16384 := by
  have hword : leWordAt [0, 0, 0, 63] 0 = 1056964608 := by
    norm_num [leWordAt, List.getD]
  have hconv : convertSamples [0, 0, 0, 63] = [16383] := by
    have hw : toWords [0, 0, 0, 63] = [1056964608] := by norm_num [toWords]
    rw [convertSamples, hw, List.map_cons, List.map_nil]
    norm_num [sampleToInt16, decodeF32, f32Mul32767, jsMin, jsMax, jsToInt16, jsTrunc]
  refine ⟨?_, ?_, ?_, by decide⟩
  · rw [hword]; norm_num [decodeF32]
  · have hstep : (step liveState (Event.binaryMessage envOk [0, 0, 0, 63])).2 =
        [Effect.upstreamWrite 0 (convertSamples [0, 0, 0, 63])] := rfl
    rw [hstep, hconv]
  · have h1 : round ((1 / 2 : ℚ) * 32767) = 16384 := by
      rw [round_eq]; norm_num
    rw [specRoundSample, h1]; decide

/-- Claim C1 (amended): for every frame whose byte length is a multiple of
four, processed while the stream is live and writable, the session performs
exactly one upstream write, and the 16-bit sample at index i equals the
clamp to [-32768, 32767] of the truncation toward zero of input[i] * 32767,
where input[i] is the i-th little-endian IEEE-754 binary32 value of the
frame, NaN converting to 0 and the infinities to the clamp bounds; the
conversion is per-sample and deterministic. -/
theorem claim_C1_amended (st : SessionState) (h : StreamHandle) (env : Env)
    (frame : List Nat) (i : Nat)
    (hs : st.stream = some h) (hd : h.destroyed = false) (hw : h.writable = true)
    (hlen : frame.length % 4 = 0) (hi : 4 * i + 4 ≤ frame.length) :
    (step st (Event.binaryMessage env frame)).2 =
      [Effect.upstreamWrite h.id (convertSamples frame)] ∧
    (convertSamples frame).get? i =
      some (truncSample (decodeF32 (leWordAt frame i))) := by
  constructor
  · simp [step, onBinaryMessage, processAndSendAudio, hs, hd, hw, hlen]
  · rw [convertSamples_get? frame i hi, sampleToInt16_eq_truncSample]

/-- Claim C1 witness: the amended statement evaluated on the frame holding
the single float 0.5 in a live writable session. -/
theorem claim_C1_amended_witness :
    (step liveState (Event.binaryMessage envOk [0, 0, 0, 63])).2 =
      [Effect.upstreamWrite 0 (convertSamples [0, 0, 0, 63])] ∧
    (convertSamples [0, 0, 0, 63]).get? 0 =
      some (truncSample (decodeF32 (leWordAt [0, 0, 0, 63] 0))) :=
  claim_C1_amended liveState ⟨0, false, true⟩ envOk [0, 0, 0, 63] 0 rfl rfl rfl
    (by decide) (by decide)

/-- Claim C2, counterexample: a 7-byte frame received with no stream handle
still triggers lazy stream creation, so the session state is not unchanged
in every session state as the claim asserts. -/
theorem claim_C2_counterexample :
    ([0, 0, 0, 0, 0, 0, 0] : List Nat).length % 4 ≠ 0 ∧
    (step initialSession (Event.binaryMessage envOk [0, 0, 0, 0, 0, 0, 0])).1 ≠
      initialSession := by decide

/-- Claim C2 (amended): a binary frame whose byte length is not a multiple
of four is never written upstream and never produces a message of its own:
when a stream handle is present (live or destroyed) the step is exactly a
no-op, and when no handle exists the step is exactly the lazy stream
creation (with its usual success or failure effects), the malformed frame
itself being dropped; subsequent frames are processed normally. -/
theorem claim_C2_amended (st : SessionState) (env : Env) (frame : List Nat)
    (hlen : frame.length % 4 ≠ 0) :
    step st (Event.binaryMessage env frame) =
      if st.stream = none then startGoogleStream env st else (st, []) := by
  cases hstream : st.stream with
  | none =>
      rw [if_pos rfl]
      by_cases hok : env.creationOk = true
      · by_cases hwc : env.writableOnCreate = true
        · simp [step, onBinaryMessage, hstream, startGoogleStream, hok, hwc,
            processAndSendAudio, hlen]
        · have hwc2 : env.writableOnCreate = false := by
            revert hwc; cases env.writableOnCreate <;> simp
          simp [step, onBinaryMessage, hstream, startGoogleStream, hok, hwc2]
      · simp [step, onBinaryMessage, hstream, startGoogleStream, hok]
  | some h =>
      rw [if_neg (by simp)]
      by_cases hd : h.destroyed = true
      · simp [step, onBinaryMessage, hstream, hd]
      · by_cases hw2 : h.writable = true
        · simp [step, onBinaryMessage, hstream, hd, hw2, processAndSendAudio, hlen]
        · have hw3 : h.writable = false := by
            revert hw2; cases h.writable <;> simp
          simp [step, onBinaryMessage, hstream, hd, hw3]

/-- Claim C2 witness: the amended statement evaluated on a 7-byte frame in a
live streaming session. -/
theorem claim_C2_amended_witness :
    step liveState (Event.binaryMessage envOk [0, 0, 0, 0, 0, 0, 0]) =
      if liveState.stream = none then startGoogleStream envOk liveState
      else (liveState, []) :=
  claim_C2_amended liveState envOk [0, 0, 0, 0, 0, 0, 0] (by decide)

/-- Claim C3, counterexample: a 4000-byte all-zero frame holds 1000 floats,
so the upstream write holds 1000 zero samples, not the 2000 the claim
asserts. -/
theorem claim_C3_counterexample :
    (step liveState (Event.binaryMessage envOk (List.replicate 4000 0))).2 =
      [Effect.upstreamWrite 0 (List.replicate 1000 (0 : ℤ))] ∧
    (List.replicate 1000 (0 : ℤ)).length ≠ 2000 := by
  have hconv : convertSamples (List.replicate 4000 0) = List.replicate 1000 (0 : ℤ) := by
    have h := convertSamples_replicate 1000
    norm_num at h
    exact h
  have hlen : (List.replicate 4000 (0 : ℕ)).length % 4 = 0 := by
    rw [List.length_replicate]
  constructor
  · rw [step_binary_live liveState ⟨0, false, true⟩ envOk _ rfl rfl rfl,
      processAndSendAudio_live _ _ ⟨0, false, true⟩ rfl rfl rfl hlen, hconv]
  · rw [List.length_replicate]
    decide

/-- Claim C3 (amended): a single 4000-byte all-zero float frame processed
while the stream is live and writable produces exactly one upstream write of
1000 zero-valued 16-bit samples (2000 bytes), no other effect and no error
message to the client, and leaves the session state unchanged. -/
theorem claim_C3_amended :
    step liveState (Event.binaryMessage envOk (List.replicate 4000 0)) =
      (liveState, [Effect.upstreamWrite 0 (List.replicate 1000 (0 : ℤ))]) ∧
    (step liveState (Event.binaryMessage envOk (List.replicate 4000 0))).2.countP
      isErrorSend = 0 := by
  have hconv : convertSamples (List.replicate 4000 0) = List.replicate 1000 (0 : ℤ) := by
    have h := convertSamples_replicate 1000
    norm_num at h
    exact h
  have hlen : (List.replicate 4000 (0 : ℕ)).length % 4 = 0 := by
    rw [List.length_replicate]
  have hstep : step liveState (Event.binaryMessage envOk (List.replicate 4000 0)) =
      (liveState, [Effect.upstreamWrite 0 (convertSamples (List.replicate 4000 0))]) := by
    rw [step_binary_live liveState ⟨0, false, true⟩ envOk _ rfl rfl rfl,
      processAndSendAudio_live _ _ ⟨0, false, true⟩ rfl rfl rfl hlen]
  rw [hstep, hconv]
  constructor
  · rfl
  · rw [List.countP_cons, List.countP_nil]
    rfl

/-- Claim C4: every session state holds at most one stream handle (the
source keeps a single nullable variable), and a stream-creation effect is
only ever emitted from a state whose handle is absent. -/
theorem claim_C4 (st : SessionState) (e : Event) (id : Nat)
    (hmem : Effect.startStream id ∈ (step st e).2) :
    st.stream = none ∧ liveCount st ≤ 1 := by
  have hcount : liveCount st ≤ 1 := by
    cases hstream : st.stream <;> simp [liveCount, hstream]
  refine ⟨?_, hcount⟩
  cases e with
  | textMessage m =>
      exfalso
      cases m with
      | notJson => simp [step, onTextMessage] at hmem
      | json c =>
          by_cases hc : c = some "stopStreaming"
          · cases hstream : st.stream with
            | none => simp [step, onTextMessage, hc, hstream] at hmem
            | some h =>
                by_cases hg : (!h.destroyed && h.writable) = true <;>
                  simp [step, onTextMessage, hc, hstream, hg] at hmem
          · simp [step, onTextMessage, hc] at hmem
  | binaryMessage env frame =>
      cases hstream : st.stream with
      | none => rfl
      | some h =>
          exfalso
          by_cases hd : h.destroyed = true
          · simp [step, onBinaryMessage, hstream, hd] at hmem
          · by_cases hw2 : h.writable = true
            · simp [step, onBinaryMessage, hstream, hd, hw2] at hmem
              have hwr := processAndSendAudio_writes frame st _ hmem
              simp [isWrite] at hwr
            · have hw3 : h.writable = false := by
                revert hw2; cases h.writable <;> simp
              simp [step, onBinaryMessage, hstream, hd, hw3] at hmem
  | streamError msg =>
      exfalso
      by_cases hws : st.wsOpen = true <;> cases hstream : st.stream <;>
        simp [step, onStreamError, hws, hstream] at hmem
  | streamData d =>
      exfalso
      have hsend := onStreamData_sends d st _ hmem
      simp [isClientSend] at hsend
  | streamEnded => exfalso; simp [step] at hmem
  | streamClosed => exfalso; simp [step] at hmem
  | wsClose =>
      exfalso
      cases hstream : st.stream with
      | none => simp [step, onWsClose, hstream] at hmem
      | some h =>
          by_cases hg : (!h.destroyed && h.writable) = true <;>
            simp [step, onWsClose, hstream, hg] at hmem
  | wsError =>
      exfalso
      cases hstream : st.stream with
      | none => simp [step, onWsError, hstream] at hmem
      | some h =>
          by_cases hg : (!h.destroyed) = true <;>
            simp [step, onWsError, hstream, hg] at hmem

/-- Claim C4 witness: the creation effect emitted by the first audio frame of
a fresh session comes from a state with no handle. -/
theorem claim_C4_witness :
    initialSession.stream = none ∧ liveCount initialSession ≤ 1 :=
  claim_C4 initialSession (Event.binaryMessage envOk []) 0 (by decide)

/-- Claim C5: on an upstream stream error event, exactly one error message is
sent to the client if and only if the socket is open, the message carries the
engine text or the generic fallback, the stream is destroyed whenever the
reference is still held, the handle ends absent, and no stream creation is
attempted. -/
theorem claim_C5 (st : SessionState) (msg : Option String) :
    ((step st (Event.streamError msg)).2.countP isErrorSend =
      if st.wsOpen then 1 else 0) ∧
    (step st (Event.streamError msg)).1.stream = none ∧
    (∀ h, st.stream = some h →
      Effect.upstreamDestroy h.id ∈ (step st (Event.streamError msg)).2) ∧
    (∀ id, Effect.startStream id ∉ (step st (Event.streamError msg)).2) ∧
    (st.wsOpen = true →
      Effect.sendToClient (OutMsg.errorMsg
        ("Google API Error: " ++ engineErrorText msg)) ∈
        (step st (Event.streamError msg)).2) := by
  by_cases hws : st.wsOpen = true
  · cases hstream : st.stream with
    | none =>
        refine ⟨?_, by simp [step, onStreamError], ?_, ?_, ?_⟩ <;>
          simp [step, onStreamError, hws, hstream, List.countP_cons, isErrorSend]
    | some h =>
        refine ⟨?_, by simp [step, onStreamError], ?_, ?_, ?_⟩ <;>
          simp [step, onStreamError, hws, hstream, List.countP_cons, isErrorSend]
  · have hws2 : st.wsOpen = false := by
      revert hws; cases st.wsOpen <;> simp
    cases hstream : st.stream with
    | none =>
        refine ⟨?_, by simp [step, onStreamError], ?_, ?_, ?_⟩ <;>
          simp [step, onStreamError, hws2, hstream, List.countP_cons, isErrorSend]
    | some h =>
        refine ⟨?_, by simp [step, onStreamError], ?_, ?_, ?_⟩ <;>
          simp [step, onStreamError, hws2, hstream, List.countP_cons, isErrorSend]

/-- Claim C5 witness: the error event on a live open session destroys the
stream and sends the engine error text to the client. -/
theorem claim_C5_witness :
    Effect.upstreamDestroy 0 ∈ (step liveState (Event.streamError (some "boom"))).2 ∧
    Effect.sendToClient (OutMsg.errorMsg "Google API Error: boom") ∈
      (step liveState (Event.streamError (some "boom"))).2 :=
  ⟨(claim_C5 liveState (some "boom")).2.2.1 ⟨0, false, true⟩ rfl,
   (claim_C5 liveState (some "boom")).2.2.2.2 rfl⟩

/-- Claim C6, counterexample: when stream creation throws, the text actually
sent is the full sentence ending in the word service, not the exact message
the claim quotes. -/
theorem claim_C6_counterexample :
    (step initialSession (Event.binaryMessage envThrow [0, 0, 0, 0])).2 =
      [Effect.sendToClient (OutMsg.errorMsg
        "Internal failure starting transcription service.")] ∧
    Effect.sendToClient (OutMsg.errorMsg "internal failure starting transcription") ∉
      (step initialSession (Event.binaryMessage envThrow [0, 0, 0, 0])).2 := by
  decide

/-- Claim C6 (amended): if creating the upstream stream throws synchronously,
the session sends the error text Internal failure starting transcription
service. to the client when the socket is open (and nothing when it is not),
afterwards holds no upstream handle, and a subsequent audio frame retries
stream creation. -/
theorem claim_C6_amended (st : SessionState) (env env2 : Env)
    (frame frame2 : List Nat) (hs : st.stream = none)
    (hok : env.creationOk = false) (hok2 : env2.creationOk = true) :
    step st (Event.binaryMessage env frame) =
      (st, if st.wsOpen then
        [Effect.sendToClient (OutMsg.errorMsg
          "Internal failure starting transcription service.")]
      else []) ∧
    (step st (Event.binaryMessage env frame)).1.stream = none ∧
    Effect.startStream st.nextId ∈
      (step (step st (Event.binaryMessage env frame)).1
        (Event.binaryMessage env2 frame2)).2 := by
  have hset : { st with stream := none } = st := by
    cases st
    simp_all
  have hstep : step st (Event.binaryMessage env frame) =
      (st, if st.wsOpen then
        [Effect.sendToClient (OutMsg.errorMsg
          "Internal failure starting transcription service.")]
      else []) := by
    rw [show step st (Event.binaryMessage env frame) =
        onBinaryMessage env frame st from rfl]
    rw [onBinaryMessage]
    rw [hs]
    rw [show startGoogleStream env st =
        ({ st with stream := none },
          if st.wsOpen then
            [Effect.sendToClient (OutMsg.errorMsg
              "Internal failure starting transcription service.")]
          else []) from by rw [startGoogleStream, hok]; simp]
    rw [hset]
    simp [hs]
  refine ⟨hstep, by rw [hstep]; exact hs, ?_⟩
  rw [hstep]
  by_cases hwc : env2.writableOnCreate = true
  · simp [step, onBinaryMessage, hs, startGoogleStream, hok2, hwc]
  · have hwc2 : env2.writableOnCreate = false := by
      revert hwc; cases env2.writableOnCreate <;> simp
    simp [step, onBinaryMessage, hs, startGoogleStream, hok2, hwc2]

/-- Claim C6 witness: the amended statement evaluated on a fresh open
session whose first creation attempt throws and whose retry succeeds. -/
theorem claim_C6_amended_witness :
    step initialSession (Event.binaryMessage envThrow []) =
      (initialSession, if initialSession.wsOpen then
        [Effect.sendToClient (OutMsg.errorMsg
          "Internal failure starting transcription service.")]
      else []) ∧
    (step initialSession (Event.binaryMessage envThrow [])).1.stream = none ∧
    Effect.startStream initialSession.nextId ∈
      (step (step initialSession (Event.binaryMessage envThrow [])).1
        (Event.binaryMessage envOk [])).2 :=
  claim_C6_amended initialSession envThrow envOk [] [] rfl rfl rfl

/-- Claim C7, counterexample: on client disconnect with a live writable
stream, the close handler only half-closes the write side; no destroy of the
upstream stream is issued. -/
theorem claim_C7_counterexample :
    (step liveState Event.wsClose).2 = [Effect.upstreamEnd 0] ∧
    Effect.upstreamDestroy 0 ∉ (step liveState Event.wsClose).2 := by decide

/-- Claim C7 (amended): on client disconnect while the stream is live and
writable, a half-close of the write side is issued (no forced destroy), the
session reference is set absent and the socket marked closed, and no write
to that upstream stream is ever attempted in any later trace of events. -/
theorem claim_C7_amended (st : SessionState) (h : StreamHandle) (es : List Event)
    (hs : st.stream = some h) (hd : h.destroyed = false) (hw : h.writable = true)
    (hid : h.id < st.nextId) :
    step st Event.wsClose =
      ({ st with stream := none, wsOpen := false }, [Effect.upstreamEnd h.id]) ∧
    (runTrace (step st Event.wsClose).1 es).2.countP (writesTo h.id) = 0 := by
  have hstep : step st Event.wsClose =
      ({ st with stream := none, wsOpen := false }, [Effect.upstreamEnd h.id]) := by
    simp [step, onWsClose, hs, hd, hw]
  refine ⟨hstep, ?_⟩
  have hav : avoids h.id { st with stream := none, wsOpen := false } :=
    ⟨by simp, hid⟩
  rw [hstep]
  rw [List.countP_eq_zero]
  intro ef hef
  have := runTrace_avoids h.id { st with stream := none, wsOpen := false } es hav ef hef
  simp [this]

/-- Claim C7 witness: the amended statement evaluated on a live session and a
later trace that sends another audio frame, which goes to a fresh stream. -/
theorem claim_C7_amended_witness :
    step liveState Event.wsClose =
      ({ liveState with stream := none, wsOpen := false },
        [Effect.upstreamEnd 0]) ∧
    (runTrace (step liveState Event.wsClose).1
      [Event.binaryMessage envOk [0, 0, 0, 0]]).2.countP (writesTo 0) = 0 :=
  claim_C7_amended liveState ⟨0, false, true⟩
    [Event.binaryMessage envOk [0, 0, 0, 0]] rfl rfl rfl (by decide)

/-- Claim C8: the stopStreaming command received when no stream is present,
live and writable is a complete no-op (state unchanged, nothing sent), and
so is any parsed command whose command field differs from stopStreaming. -/
theorem claim_C8 (st : SessionState) (c : Option String)
    (hns : activeWritable st = false) (hc : c ≠ some "stopStreaming") :
    step st (Event.textMessage (TextMsg.json (some "stopStreaming"))) = (st, []) ∧
    step st (Event.textMessage (TextMsg.json c)) = (st, []) := by
  constructor
  · cases hstream : st.stream with
    | none => simp [step, onTextMessage, hstream]
    | some h =>
        have hg : (!h.destroyed && h.writable) = false := by
          rw [activeWritable, hstream] at hns
          exact hns
        simp [step, onTextMessage, hstream, hg]
  · simp [step, onTextMessage, hc]

/-- Claim C8 witness: a stop command in a fresh session and an unknown
command are both no-ops. -/
theorem claim_C8_witness :
    step initialSession (Event.textMessage (TextMsg.json (some "stopStreaming"))) =
      (initialSession, []) ∧
    step initialSession (Event.textMessage (TextMsg.json (some "foo"))) =
      (initialSession, []) :=
  claim_C8 initialSession (some "foo") (by decide) (by decide)

/-- Claim C9: a data event of the upstream stream changes no state and sends
at most one message to the client, and any message sent is built exclusively
from the transcript of the first alternative of the first result of that
event, with its finality flag; further results and alternatives are never
forwarded. -/
theorem claim_C9 (st : SessionState) (d : RecogData) :
    (step st (Event.streamData d)).1 = st ∧
    (step st (Event.streamData d)).2.length ≤ 1 ∧
    ∀ ef ∈ (step st (Event.streamData d)).2,
      ∃ r rs alts a t,
        d.results = some (r :: rs) ∧ r.alternatives = some (a :: alts) ∧
        a.transcript = some t ∧ t ≠ "" ∧
        ef = Effect.sendToClient (OutMsg.transcriptMsg t (r.is_final.getD false)) := by
  obtain ⟨results, sev⟩ := d
  rcases results with _ | (_ | ⟨r, rs⟩)
  · exact ⟨rfl, by simp [step, onStreamData], by simp [step, onStreamData]⟩
  · exact ⟨rfl, by simp [step, onStreamData], by simp [step, onStreamData]⟩
  · obtain ⟨alts, fin⟩ := r
    rcases alts with _ | (_ | ⟨a, as⟩)
    · exact ⟨rfl, by simp [step, onStreamData], by simp [step, onStreamData]⟩
    · exact ⟨rfl, by simp [step, onStreamData], by simp [step, onStreamData]⟩
    · obtain ⟨tr⟩ := a
      rcases tr with _ | t
      · exact ⟨rfl, by simp [step, onStreamData], by simp [step, onStreamData]⟩
      · by_cases ht : t = ""
        · exact ⟨rfl, by simp [step, onStreamData, ht],
            by simp [step, onStreamData, ht]⟩
        · by_cases hws : st.wsOpen = true
          · have heff : (step st (Event.streamData
                ⟨some (⟨some (⟨some t⟩ :: as), fin⟩ :: rs), sev⟩)).2 =
                [Effect.sendToClient (OutMsg.transcriptMsg t (fin.getD false))] := by
              simp [step, onStreamData, ht, hws]
            refine ⟨rfl, ?_, ?_⟩
            · rw [heff]
              simp
            · rw [heff]
              intro ef hef
              simp at hef
              exact ⟨⟨some (⟨some t⟩ :: as), fin⟩, rs, as, ⟨some t⟩, t,
                rfl, rfl, rfl, ht, by rw [hef]⟩
          · have hws2 : st.wsOpen = false := by
              revert hws; cases st.wsOpen <;> simp
            exact ⟨rfl, by simp [step, onStreamData, ht, hws2],
              by simp [step, onStreamData, ht, hws2]⟩

/-- Claim C9 witness: on a concrete event carrying two results and two
alternatives, the single forwarded message is the first alternative of the
first result. -/
theorem claim_C9_witness :
    (step liveState (Event.streamData sampleData)).1 = liveState ∧
    (step liveState (Event.streamData sampleData)).2.length ≤ 1 ∧
    (∃ r rs alts a t,
      sampleData.results = some (r :: rs) ∧ r.alternatives = some (a :: alts) ∧
      a.transcript = some t ∧ t ≠ "" ∧
      Effect.sendToClient (OutMsg.transcriptMsg "ola" true) =
        Effect.sendToClient (OutMsg.transcriptMsg t (r.is_final.getD false))) :=
  ⟨(claim_C9 liveState sampleData).1,
   (claim_C9 liveState sampleData).2.1,
   (claim_C9 liveState sampleData).2.2
     (Effect.sendToClient (OutMsg.transcriptMsg "ola" true)) (by decide)⟩

/-- Claim C10: a zero-length binary frame passes the multiple-of-four
validation; with a live writable stream it produces a write of zero samples
(not a drop, no state change), and with no handle it triggers stream
creation. -/
theorem claim_C10 (st st2 : SessionState) (h : StreamHandle) (env env2 : Env)
    (hs : st.stream = some h) (hd : h.destroyed = false) (hw : h.writable = true)
    (hs2 : st2.stream = none) (hok2 : env2.creationOk = true) :
    (0 : ℕ) % 4 = 0 ∧
    step st (Event.binaryMessage env []) = (st, [Effect.upstreamWrite h.id []]) ∧
    Effect.startStream st2.nextId ∈ (step st2 (Event.binaryMessage env2 [])).2 := by
  refine ⟨by decide, ?_, ?_⟩
  · rw [step_binary_live st h env [] hs hd hw,
      processAndSendAudio_live [] st h hs hd hw (by decide)]
    rfl
  · by_cases hwc : env2.writableOnCreate = true
    · simp [step, onBinaryMessage, hs2, startGoogleStream, hok2, hwc]
    · have hwc2 : env2.writableOnCreate = false := by
        revert hwc; cases env2.writableOnCreate <;> simp
      simp [step, onBinaryMessage, hs2, startGoogleStream, hok2, hwc2]

/-- Claim C10 witness: the empty frame on a live session and on a fresh
session, evaluated. -/
theorem claim_C10_witness :
    (0 : ℕ) % 4 = 0 ∧
    step liveState (Event.binaryMessage envOk []) =
      (liveState, [Effect.upstreamWrite 0 []]) ∧
    Effect.startStream initialSession.nextId ∈
      (step initialSession (Event.binaryMessage envOk [])).2 :=
  claim_C10 liveState initialSession ⟨0, false, true⟩ envOk envOk rfl rfl rfl rfl rfl

end SpeechRelay
